import Mathlib

/-!
Shallow embedding of the Period Utilization Aggregator of the FinOpsRI
repository, translated from `src/local_run/analyze_ri_utilization.py`
(function `analyze_ri_utilization_for_period` and helper `generate_alert`;
the Azure variant `src/azure_functions/analyze_ri_func/analyze_ri_utilization.py`
has the identical aggregation logic in the cited ranges).

Python `date` objects are embedded as a `Date` structure (proleptic
Gregorian); date ordering, membership in the day map and date subtraction
go through the ordinal `toRD` (the analogue of Python's `date.toordinal`).
Real-valued utilization percentages are embedded as exact fractions `Frac`
(an integer numerator over a positive integer denominator, compared by
cross-multiplication), so that every computation of the model is
kernel-evaluable; no claim distinguishes exact arithmetic from float
arithmetic at the probed inputs.  Python dicts (insertion ordered,
assignment overwrites) are embedded as association lists with an
overwriting insert.
-/

namespace FinOpsRI

/-- An exact fraction: the embedding of a real-valued (Python float)
quantity.  All constructions used by the model keep `den` positive. -/
structure Frac where
  num : Int
  den : Int
deriving DecidableEq, Repr

/-- The fraction `n / 1`. -/
def Frac.ofInt (n : Int) : Frac := ⟨n, 1⟩

/-- Exact addition (denominators multiplied, no reduction). -/
def Frac.add (a b : Frac) : Frac := ⟨a.num * b.den + b.num * a.den, a.den * b.den⟩

/-- Exact multiplication. -/
def Frac.mul (a b : Frac) : Frac := ⟨a.num * b.num, a.den * b.den⟩

/-- Exact division. -/
def Frac.div (a b : Frac) : Frac := ⟨a.num * b.den, a.den * b.num⟩

/-- Value comparison `a < b` (cross-multiplied; correct for positive
denominators). -/
def Frac.ltb (a b : Frac) : Bool := a.num * b.den < b.num * a.den

/-- Value equality `a == b` (cross-multiplied). -/
def Frac.eqv (a b : Frac) : Bool := a.num * b.den == b.num * a.den

/-- A calendar date, as Python's `datetime.date` (year-month-day). -/
structure Date where
  year : Int
  month : Int
  day : Int
deriving DecidableEq, Repr

/-- `calendar.isleap`: divisible by 4 and (not by 100 or by 400). -/
def isLeap (y : Int) : Bool :=
  y.emod 4 == 0 && (y.emod 100 != 0 || y.emod 400 == 0)

/-- `calendar.monthrange(y, m)[1]`: number of days in month `m` of year `y`. -/
def daysInMonth (y m : Int) : Int :=
  if m = 2 then (if isLeap y then 29 else 28)
  else if m = 4 ∨ m = 6 ∨ m = 9 ∨ m = 11 then 30
  else 31

/-- Days in the months strictly before month `m` in a non-leap year. -/
def daysBeforeMonth (m : Int) : Int :=
  if m = 1 then 0 else if m = 2 then 31 else if m = 3 then 59
  else if m = 4 then 90 else if m = 5 then 120 else if m = 6 then 151
  else if m = 7 then 181 else if m = 8 then 212 else if m = 9 then 243
  else if m = 10 then 273 else if m = 11 then 304 else 334

/-- `date.toordinal`: day number of a date in the proleptic Gregorian
calendar, with `0001-01-01` mapped to `1`.  Differences of ordinals are
Python's `(d1 - d2).days`. -/
def toRD (d : Date) : Int :=
  let y := d.year - 1
  365 * y + y.fdiv 4 - y.fdiv 100 + y.fdiv 400
    + daysBeforeMonth d.month
    + (if 2 < d.month ∧ isLeap d.year then 1 else 0)
    + d.day

/-- The per-day value stored in `ri_grouped_data[(sub_id, res_id)][report_date]`. -/
structure DayRec where
  utilization : Frac
  emailRecipient : String
  skuName : String
  region : String
  termMonths : Option Int
  purchaseDate : Date
deriving DecidableEq, Repr

/-- One raw row fetched from the `ri_usage` table.  The two date columns are
strings in the source and are parsed with `datetime.strptime`; a field that
would fail to parse is embedded as `none`. -/
structure RawRecord where
  subId : String
  resId : String
  usage : Frac
  reportDate : Option Date
  emailRecipient : String
  skuName : String
  region : String
  termMonths : Option Int
  purchaseDate : Option Date
deriving DecidableEq, Repr

/-- Caller-supplied configuration of `analyze_ri_utilization_for_period`. -/
structure Config where
  minUtilThreshold : Frac
  expiryWarnDays : Int
  minUnderutilizedDaysForAlert : Int
  minUnusedDaysForAlert : Int
  defaultRegion : String
  defaultSku : String
deriving DecidableEq, Repr

/-- Overwriting insert into an association list keyed by day ordinal:
Python's `dict[key] = value` (insertion order kept, existing key updated
in place). -/
def setA (k : Int) (v : DayRec) : List (Int × DayRec) → List (Int × DayRec)
  | [] => [(k, v)]
  | (k', v') :: rest => if k' = k then (k, v) :: rest else (k', v') :: setA k v rest

/-- Python's `key in dict` / `dict[key]` on the day map. -/
def lookupA (k : Int) : List (Int × DayRec) → Option DayRec
  | [] => none
  | (k', v') :: rest => if k' = k then some v' else lookupA k rest

/-- The grouped data: `(subscription_id, resource_id)` keys in first-insertion
order, each mapped to its day map. -/
abbrev Grouped := List ((String × String) × List (Int × DayRec))

/-- Insert one parsed row into the grouped structure, as
`ri_grouped_data[(sub_id, res_id)][report_date_obj] = {...}` does. -/
def insertRow (key : String × String) (rd : Int) (rec : DayRec) : Grouped → Grouped
  | [] => [(key, [(rd, rec)])]
  | (k, m) :: rest =>
      if k = key then (k, setA rd rec m) :: rest
      else (k, m) :: insertRow key rd rec rest

/-- The grouping loop over `raw_data`.  Each row's `report_date` and
`purchase_date` strings are parsed with `datetime.strptime`; the loop body
sits inside the function's single `try`, whose handler logs and re-raises,
so the first unparseable field aborts the whole run with an error. -/
def groupRows : List RawRecord → Grouped → Except String Grouped
  | [], acc => .ok acc
  | r :: rest, acc =>
      match r.reportDate, r.purchaseDate with
      | some rd, some pd =>
          groupRows rest (insertRow (r.subId, r.resId) (toRD rd)
            { utilization := r.usage
              emailRecipient := r.emailRecipient
              skuName := r.skuName
              region := r.region
              termMonths := r.termMonths
              purchaseDate := pd } acc)
      | _, _ => .error "MalformedRecord"

/-- The resolved RI attributes (`data_payload` in the source). -/
structure Payload where
  skuName : String
  region : String
  termMonths : Option Int
  emailRecipient : String
  purchaseDate : Option Date
deriving DecidableEq, Repr

/-- The mutable per-RI accumulators of the window walk. -/
structure WalkState where
  curUnder : Nat
  curUnused : Nat
  maxUnder : Nat
  maxUnused : Nat
  sumUtil : Frac
  daysWithData : Nat
  totalUnder : Nat
  totalUnused : Nat
  payload : Payload
deriving DecidableEq, Repr

/-- Initial accumulators: counters at 0, `data_payload` at its defaults. -/
def initState (cfg : Config) : WalkState :=
  { curUnder := 0, curUnused := 0, maxUnder := 0, maxUnused := 0
    sumUtil := Frac.ofInt 0, daysWithData := 0, totalUnder := 0, totalUnused := 0
    payload :=
      { skuName := cfg.defaultSku, region := cfg.defaultRegion
        termMonths := none, emailRecipient := "N/A", purchaseDate := none } }

/-- One iteration of the `while current_date <= analysis_period_end_date`
loop body, at day ordinal `d`. -/
def stepDay (thresholdPct : Frac) (dayMap : List (Int × DayRec)) (d : Int)
    (s : WalkState) : WalkState :=
  match lookupA d dayMap with
  | some rec =>
      let s :=
        { s with payload :=
            { skuName := rec.skuName, region := rec.region
              termMonths := rec.termMonths
              emailRecipient := rec.emailRecipient
              purchaseDate := some rec.purchaseDate } }
      let s :=
        if Frac.ltb rec.utilization thresholdPct then
          let s := { s with curUnder := s.curUnder + 1, totalUnder := s.totalUnder + 1 }
          if Frac.eqv rec.utilization (Frac.ofInt 0) then
            { s with curUnused := s.curUnused + 1, totalUnused := s.totalUnused + 1 }
          else
            { s with curUnused := 0 }
        else
          { s with curUnder := 0, curUnused := 0 }
      { s with maxUnder := max s.maxUnder s.curUnder
               maxUnused := max s.maxUnused s.curUnused
               sumUtil := Frac.add s.sumUtil rec.utilization
               daysWithData := s.daysWithData + 1 }
  | none =>
      { s with curUnder := 0, curUnused := 0 }

/-- The list of day ordinals of the analysis window, in ascending order. -/
def windowDates (startRD : Int) (totalDays : Nat) : List Int :=
  (List.range totalDays).map (fun (i : Nat) => startRD + (i : Int))

/-- The full window walk for one RI. -/
def runWalk (cfg : Config) (dayMap : List (Int × DayRec)) (startRD : Int)
    (totalDays : Nat) : WalkState :=
  (windowDates startRD totalDays).foldl
    (fun s d => stepDay (Frac.mul cfg.minUtilThreshold (Frac.ofInt 100)) dayMap d s)
    (initState cfg)

/-- `missing_days_count = len(expected_dates_in_period - actual_dates_in_data)`:
the number of window days absent from the day map. -/
def missingDaysCount (dayMap : List (Int × DayRec)) (startRD : Int)
    (totalDays : Nat) : Nat :=
  ((windowDates startRD totalDays).filter (fun d => (lookupA d dayMap).isNone)).length

/-- `min(actual_dates_in_data)` when the day map is non-empty. -/
def minKey (dayMap : List (Int × DayRec)) : Option Int :=
  match dayMap.map Prod.fst with
  | [] => none
  | k :: ks => some (ks.foldl min k)

/-- `max(actual_dates_in_data)` when the day map is non-empty. -/
def maxKey (dayMap : List (Int × DayRec)) : Option Int :=
  match dayMap.map Prod.fst with
  | [] => none
  | k :: ks => some (ks.foldl max k)

/-- `is_data_continuous_from_start`: the number of days with data equals the
span from the first to the last observed date, when both exist. -/
def isContinuousFromStart (dayMap : List (Int × DayRec)) (daysWithData : Nat) : Bool :=
  match minKey dayMap, maxKey dayMap with
  | some f, some l => (daysWithData : Int) = l - f + 1
  | _, _ => false

/-- `overall_utilization_percent`: mean utilization over the days with data,
`0.0` when there are none. -/
def overallUtil (sumUtil : Frac) (daysWithData : Nat) : Frac :=
  if 0 < daysWithData then Frac.div sumUtil (Frac.ofInt daysWithData)
  else Frac.ofInt 0

/-- Calendar-month addition of the term to the purchase date, with the
day-of-month clamped to the last valid day of the resulting month
(`date(expiry_year, expiry_month, purchase_date_obj.day)` with the
`ValueError` handler falling back to `monthrange`). -/
def computeExpiry (p : Date) (tm : Int) : Date :=
  let ey := p.year + tm.fdiv 12
  let em := p.month + tm.emod 12
  let ey := if em > 12 then ey + (em - 1).fdiv 12 else ey
  let em := if em > 12 then (em - 1).emod 12 + 1 else em
  let dim := daysInMonth ey em
  if p.day ≤ dim then ⟨ey, em, p.day⟩ else ⟨ey, em, dim⟩

/-- The expiry block of the per-RI body: yields
`(expiry_date_ri_obj, days_remaining, is_expiring_soon)`.  When
`purchase_date` or `term_months` is missing the block is skipped and the
initial values `(None, -1, False)` stand. -/
def computeExpiryInfo (pd : Option Date) (tm : Option Int) (endRD : Int)
    (warnDays : Int) : Option Date × Int × Bool :=
  match pd, tm with
  | some p, some t =>
      let e := computeExpiry p t
      let dr := toRD e - endRD
      (some e, dr, decide (dr ≤ warnDays) && decide (0 ≤ dr))
  | _, _ => (none, -1, false)

/-- `expiry_status`: `"expired"` when the window end is on or after the
expiry date, else `"expiring_soon"` when the warn flag is set, else
`"active"` (also when no expiry date was computed). -/
def expiryStatusOf (expiryDate : Option Date) (isExpiringSoon : Bool)
    (endRD : Int) : String :=
  match expiryDate with
  | some e =>
      if toRD e ≤ endRD then "expired"
      else if isExpiringSoon then "expiring_soon"
      else "active"
  | none => "active"

/-- The status classifier: first matching rule of the fixed precedence wins. -/
def statusOf (missingDays totalDays : Nat) (cont : Bool) (overall : Frac)
    (thresholdPct : Frac) : String :=
  if missingDays = totalDays then "No Data"
  else if 0 < missingDays ∧ cont = false then "Partial Data"
  else if Frac.eqv overall (Frac.ofInt 0) then "unused"
  else if Frac.ltb overall thresholdPct then "underutilized"
  else "healthy"

/-- `generate_alert`: semicolon-joined clauses, order fixed
(unused, underutilized, expiring). -/
def generate_alert (maxConsecUnderutilizedDays maxConsecUnusedDays : Nat)
    (minUnderutilizedDays minUnusedDays : Int)
    (isExpiringSoon : Bool) (daysRemaining : Int) : String :=
  let alerts :=
    (if minUnusedDays ≤ (maxConsecUnusedDays : Int) then
      ["Unused for " ++ toString maxConsecUnusedDays ++ " consecutive day(s)"] else [])
    ++ (if minUnderutilizedDays ≤ (maxConsecUnderutilizedDays : Int) then
      ["Underutilized for " ++ toString maxConsecUnderutilizedDays ++ " consecutive day(s)"] else [])
    ++ (if isExpiringSoon ∧ 0 ≤ daysRemaining then
      ["Expires in " ++ toString daysRemaining ++ " day(s)"] else [])
  String.intercalate "; " alerts

/-- The immutable output record for one RI identity. -/
structure RIResult where
  riId : String
  subscriptionId : String
  skuName : String
  region : String
  purchaseDate : Option Date
  endDate : Option Date
  termMonths : Option Int
  utilizationPercentPeriod : Frac
  daysRemaining : Int
  status : String
  expiryStatus : String
  totalUnderutilizedDays : Nat
  totalUnusedDays : Nat
  missingDays : Nat
  emailRecipient : String
  alert : String
  maxConsecutiveUnderutilizedDays : Nat
  maxConsecutiveUnusedDays : Nat
deriving DecidableEq, Repr

/-- `round(x, 2)`: two-decimal rounding of the overall utilization for the
output record (ties rounded up; no claim probes the float tie behavior). -/
def round2 (q : Frac) : Frac :=
  let y := Frac.mul q (Frac.ofInt 100)
  ⟨(2 * y.num + y.den).fdiv (2 * y.den), 100⟩

/-- The per-RI body of the aggregation loop: window walk, continuity check,
expiry block, status classification, alert, result assembly. -/
def analyzeRI (cfg : Config) (startRD endRD : Int)
    (key : String × String) (dayMap : List (Int × DayRec)) : RIResult :=
  let totalDays := (endRD - startRD + 1).toNat
  let thresholdPct := Frac.mul cfg.minUtilThreshold (Frac.ofInt 100)
  let final := runWalk cfg dayMap startRD totalDays
  let missingDays := missingDaysCount dayMap startRD totalDays
  let cont := isContinuousFromStart dayMap final.daysWithData
  let overall := overallUtil final.sumUtil final.daysWithData
  let info := computeExpiryInfo final.payload.purchaseDate final.payload.termMonths
    endRD cfg.expiryWarnDays
  let estatus := expiryStatusOf info.1 info.2.2 endRD
  let status := statusOf missingDays totalDays cont overall thresholdPct
  let alert := generate_alert final.maxUnder final.maxUnused
    cfg.minUnderutilizedDaysForAlert cfg.minUnusedDaysForAlert info.2.2 info.2.1
  { riId := key.2
    subscriptionId := key.1
    skuName := final.payload.skuName
    region := final.payload.region
    purchaseDate := final.payload.purchaseDate
    endDate := info.1
    termMonths := final.payload.termMonths
    utilizationPercentPeriod := round2 overall
    daysRemaining := info.2.1
    status := status
    expiryStatus := estatus
    totalUnderutilizedDays := final.totalUnder
    totalUnusedDays := final.totalUnused
    missingDays := missingDays
    emailRecipient := final.payload.emailRecipient
    alert := alert
    maxConsecutiveUnderutilizedDays := final.maxUnder
    maxConsecutiveUnusedDays := final.maxUnused }

/-- `analyze_ri_utilization_for_period`, from the fetched rows on: group the
rows by RI identity (aborting the run on the first unparseable record) and
produce one result per identity, in first-insertion order. -/
def analyze_ri_utilization_for_period (cfg : Config) (startDate endDate : Date)
    (rows : List RawRecord) : Except String (List RIResult) := do
  let grouped ← groupRows rows []
  return grouped.map (fun g => analyzeRI cfg (toRD startDate) (toRD endDate) g.1 g.2)

/-- The expiry-date computation as the specification words it: year advanced
by `termMonths div 12`, month advanced by `termMonths mod 12` with a one-year
carry when the month exceeds 12, day-of-month clamped to the last valid day
of the resulting month.  Stated for comparison with `computeExpiry`. -/
def specExpiryDate (p : Date) (tm : Int) : Date :=
  let y0 := p.year + tm.fdiv 12
  let m0 := p.month + tm.emod 12
  let y := if 12 < m0 then y0 + 1 else y0
  let m := if 12 < m0 then m0 - 12 else m0
  ⟨y, m, min p.day (daysInMonth y m)⟩

/-- A baseline configuration used by the concrete scenarios: threshold `0.8`,
`expiry_warn_days = 90`, alert minima `5` underutilized and `3` unused days. -/
def cfg0 : Config :=
  { minUtilThreshold := ⟨8, 10⟩, expiryWarnDays := 90
    minUnderutilizedDaysForAlert := 5, minUnusedDaysForAlert := 3
    defaultRegion := "unknown", defaultSku := "unknown" }

/-- A well-formed row for RI `(sub1, ri1)` on day `d` with utilization `u`. -/
def mkRow (d : Date) (u : Frac) : RawRecord :=
  { subId := "sub1", resId := "ri1", usage := u, reportDate := some d
    emailRecipient := "a@b.c", skuName := "Standard_D2", region := "eastus"
    termMonths := some 12, purchaseDate := some ⟨2024, 1, 15⟩ }

/-- Scenario B input: a 3-day window with utilizations `[90, 0, 90]`. -/
def rowsB : List RawRecord :=
  [mkRow ⟨2024, 6, 1⟩ ⟨90, 1⟩, mkRow ⟨2024, 6, 2⟩ ⟨0, 1⟩, mkRow ⟨2024, 6, 3⟩ ⟨90, 1⟩]

/-- Scenario C input: records on the first two days of a 5-day window. -/
def rowsC : List RawRecord := [mkRow ⟨2024, 6, 1⟩ ⟨90, 1⟩, mkRow ⟨2024, 6, 2⟩ ⟨90, 1⟩]

/-- Scenario D input: records on days 1, 3 and 5 of a 5-day window. -/
def rowsD : List RawRecord :=
  [mkRow ⟨2024, 6, 1⟩ ⟨90, 1⟩, mkRow ⟨2024, 6, 3⟩ ⟨90, 1⟩, mkRow ⟨2024, 6, 5⟩ ⟨90, 1⟩]

/-- Scenario E input: an RI purchased `2024-01-31` with a 1-month term,
observed on `2024-03-01`. -/
def rowE : RawRecord :=
  { subId := "sub1", resId := "riE", usage := ⟨90, 1⟩, reportDate := some ⟨2024, 3, 1⟩
    emailRecipient := "a@b.c", skuName := "sku", region := "eastus"
    termMonths := some 1, purchaseDate := some ⟨2024, 1, 31⟩ }

/-- An RI whose expiry date coincides with the window end: purchase
`2024-01-01`, 12-month term, window end `2025-01-01`, hence
`days_remaining = 0`. -/
def rowX : RawRecord :=
  { subId := "sub1", resId := "riX", usage := ⟨90, 1⟩, reportDate := some ⟨2025, 1, 1⟩
    emailRecipient := "a@b.c", skuName := "sku", region := "eastus"
    termMonths := some 12, purchaseDate := some ⟨2024, 1, 1⟩ }

/-- A row whose `report_date` string does not parse. -/
def rowBad : RawRecord :=
  { subId := "sub2", resId := "ri2", usage := ⟨50, 1⟩, reportDate := none
    emailRecipient := "x@y.z", skuName := "sku", region := "westus"
    termMonths := some 12, purchaseDate := some ⟨2024, 1, 1⟩ }

instance {ε α : Type} [DecidableEq ε] [DecidableEq α] : DecidableEq (Except ε α) :=
  fun x y =>
    match x, y with
    | .ok a, .ok b =>
        if h : a = b then isTrue (by rw [h])
        else isFalse (by intro hc; cases hc; exact h rfl)
    | .error a, .error b =>
        if h : a = b then isTrue (by rw [h])
        else isFalse (by intro hc; cases hc; exact h rfl)
    | .ok _, .error _ => isFalse (by intro hc; cases hc)
    | .error _, .ok _ => isFalse (by intro hc; cases hc)

/-- A concrete day record used by concrete instantiations. -/
def dayRec30 : DayRec := ⟨⟨30, 1⟩, "e", "sku", "r", some 12, ⟨2024, 1, 1⟩⟩

/-- A concrete mid-walk accumulator state used by concrete instantiations. -/
def midState : WalkState :=
  { curUnder := 4, curUnused := 2, maxUnder := 4, maxUnused := 2
    sumUtil := ⟨10, 1⟩, daysWithData := 3, totalUnder := 4, totalUnused := 2
    payload := { skuName := "s", region := "r", termMonths := some 12
                 emailRecipient := "e", purchaseDate := some ⟨2024, 1, 1⟩ } }

/-- The result list of the Scenario B run. -/
def scenarioBresults : List RIResult :=
  match analyze_ri_utilization_for_period cfg0 ⟨2024, 6, 1⟩ ⟨2024, 6, 3⟩ rowsB with
  | .ok rs => rs
  | .error _ => []

/-- A placeholder output record (used only as a `headD` default). -/
def blankResult : RIResult :=
  { riId := "", subscriptionId := "", skuName := "", region := ""
    purchaseDate := none, endDate := none, termMonths := none
    utilizationPercentPeriod := ⟨0, 1⟩, daysRemaining := 0, status := ""
    expiryStatus := "", totalUnderutilizedDays := 0, totalUnusedDays := 0
    missingDays := 0, emailRecipient := "", alert := ""
    maxConsecutiveUnderutilizedDays := 0, maxConsecutiveUnusedDays := 0 }

/-- The single output record of the Scenario B run. -/
def resultB : RIResult := scenarioBresults.headD blankResult

/-- The alert composition as the amended claim words it: the first two
clauses are keyed on the consecutive-day maxima, and the expiring clause is
present exactly when `0 ≤ daysRemaining ≤ expiryWarnDays` (the code's
`is_expiring_soon` flag), independently of the `expiryStatus` label.
Stated for comparison with the alert field built by `analyzeRI`. -/
def specAlertAmended (cfg : Config) (r : RIResult) : String :=
  String.intercalate "; "
    ((if cfg.minUnusedDaysForAlert ≤ (r.maxConsecutiveUnusedDays : Int) then
        ["Unused for " ++ toString r.maxConsecutiveUnusedDays ++ " consecutive day(s)"]
      else [])
     ++ (if cfg.minUnderutilizedDaysForAlert ≤ (r.maxConsecutiveUnderutilizedDays : Int) then
        ["Underutilized for " ++ toString r.maxConsecutiveUnderutilizedDays ++
          " consecutive day(s)"]
      else [])
     ++ (if 0 ≤ r.daysRemaining ∧ r.daysRemaining ≤ cfg.expiryWarnDays then
        ["Expires in " ++ toString r.daysRemaining ++ " day(s)"]
      else []))

/-- Every group of the grouped data is non-empty and all its day keys lie
in `[lo, hi]` (a verification invariant of the grouping loop). -/
def groupBounded (lo hi : Int) (g : Grouped) : Prop :=
  ∀ e ∈ g, e.2 ≠ [] ∧ ∀ q ∈ e.2, lo ≤ q.1 ∧ q.1 ≤ hi

theorem foldl_preserves {α β : Type} (p : α → Prop) (f : α → β → α)
    (hf : ∀ a b, p a → p (f a b)) :
    ∀ (l : List β) (a : α), p a → p (l.foldl f a) := by
  intro l
  induction l with
  | nil => intro a ha; exact ha
  | cons b bs ih => intro a ha; exact ih (f a b) (hf a b ha)

theorem analyze_ok_iff (cfg : Config) (sD eD : Date) (rows : List RawRecord)
    (res : List RIResult) :
    analyze_ri_utilization_for_period cfg sD eD rows = .ok res ↔
    ∃ g, groupRows rows [] = .ok g ∧
      res = g.map (fun x => analyzeRI cfg (toRD sD) (toRD eD) x.1 x.2) := by
  unfold analyze_ri_utilization_for_period
  cases h : groupRows rows [] with
  | ok g =>
      simp only [h, bind, Except.bind, pure, Except.pure, Except.ok.injEq]
      constructor
      · intro he; exact ⟨g, rfl, he.symm⟩
      · rintro ⟨g', hg', hres⟩
        cases hg'
        exact hres.symm
  | error e =>
      simp only [h, bind, Except.bind]
      constructor
      · intro he; cases he
      · rintro ⟨g', hg', _⟩; cases hg'

/-- C1: on a day present in the RI's day map, with
`thresholdPct = minUtilThreshold * 100`: `u < thresholdPct` increments the
consecutive and total underutilized counters, and the unused counters are
incremented exactly when `u == 0` (with `0 < u < thresholdPct` resetting the
consecutive unused counter); `u >= thresholdPct` resets both consecutive
counters; the maxima are then updated against the current counters, and the
sum/count and resolved attributes are updated from the record.  In
particular, a 3-day window with utilizations `[90, 0, 90]` and threshold
`0.8` yields `maxConsecutiveUnusedDays = 1`,
`overallUtilizationPercent = 60.0` and status `"underutilized"`. -/
theorem C1_present_day_transition :
    (∀ (thr : Frac) (m : List (Int × DayRec)) (d : Int) (s : WalkState) (rec : DayRec),
      lookupA d m = some rec →
      stepDay thr m d s =
        { curUnder := if Frac.ltb rec.utilization thr then s.curUnder + 1 else 0
          curUnused := if Frac.ltb rec.utilization thr then
              (if Frac.eqv rec.utilization (Frac.ofInt 0) then s.curUnused + 1 else 0)
            else 0
          maxUnder := max s.maxUnder
            (if Frac.ltb rec.utilization thr then s.curUnder + 1 else 0)
          maxUnused := max s.maxUnused
            (if Frac.ltb rec.utilization thr then
              (if Frac.eqv rec.utilization (Frac.ofInt 0) then s.curUnused + 1 else 0)
            else 0)
          sumUtil := Frac.add s.sumUtil rec.utilization
          daysWithData := s.daysWithData + 1
          totalUnder := s.totalUnder +
            (if Frac.ltb rec.utilization thr then 1 else 0)
          totalUnused := s.totalUnused +
            (if Frac.ltb rec.utilization thr &&
                Frac.eqv rec.utilization (Frac.ofInt 0) then 1 else 0)
          payload := { skuName := rec.skuName, region := rec.region
                       termMonths := rec.termMonths
                       emailRecipient := rec.emailRecipient
                       purchaseDate := some rec.purchaseDate } }) ∧
    (analyze_ri_utilization_for_period cfg0 ⟨2024, 6, 1⟩ ⟨2024, 6, 3⟩ rowsB).map
      (fun rs => rs.map (fun r =>
        (r.maxConsecutiveUnusedDays,
         Frac.eqv r.utilizationPercentPeriod (Frac.ofInt 60),
         r.status))) =
      .ok [(1, true, "underutilized")] := by
  constructor
  · intro thr m d s rec h
    simp only [stepDay, h]
    cases h1 : Frac.ltb rec.utilization thr with
    | true =>
        cases h2 : Frac.eqv rec.utilization (Frac.ofInt 0) with
        | true => simp [h1, h2]
        | false => simp [h1, h2]
    | false => simp [h1]
  · decide

/-- C1 witness: the transition applied at a concrete present day. -/
theorem C1_witness :
    stepDay ⟨80, 1⟩ [(5, dayRec30)] 5 midState =
    { curUnder := if Frac.ltb dayRec30.utilization ⟨80, 1⟩ then midState.curUnder + 1 else 0
      curUnused := if Frac.ltb dayRec30.utilization ⟨80, 1⟩ then
          (if Frac.eqv dayRec30.utilization (Frac.ofInt 0) then midState.curUnused + 1 else 0)
        else 0
      maxUnder := max midState.maxUnder
        (if Frac.ltb dayRec30.utilization ⟨80, 1⟩ then midState.curUnder + 1 else 0)
      maxUnused := max midState.maxUnused
        (if Frac.ltb dayRec30.utilization ⟨80, 1⟩ then
          (if Frac.eqv dayRec30.utilization (Frac.ofInt 0) then midState.curUnused + 1 else 0)
        else 0)
      sumUtil := Frac.add midState.sumUtil dayRec30.utilization
      daysWithData := midState.daysWithData + 1
      totalUnder := midState.totalUnder +
        (if Frac.ltb dayRec30.utilization ⟨80, 1⟩ then 1 else 0)
      totalUnused := midState.totalUnused +
        (if Frac.ltb dayRec30.utilization ⟨80, 1⟩ &&
            Frac.eqv dayRec30.utilization (Frac.ofInt 0) then 1 else 0)
      payload := { skuName := dayRec30.skuName, region := dayRec30.region
                   termMonths := dayRec30.termMonths
                   emailRecipient := dayRec30.emailRecipient
                   purchaseDate := some dayRec30.purchaseDate } } :=
  C1_present_day_transition.1 ⟨80, 1⟩ [(5, dayRec30)] 5 midState dayRec30 (by decide)

/-- C2: on a window date absent from the RI's day map, both consecutive
counters are reset to 0 and every other accumulator — running sum, day
count, totals, maxima and the resolved attributes — is left unchanged. -/
theorem C2_gap_resets_counters_only :
    ∀ (thr : Frac) (m : List (Int × DayRec)) (d : Int) (s : WalkState),
      lookupA d m = none →
      (stepDay thr m d s).curUnder = 0 ∧
      (stepDay thr m d s).curUnused = 0 ∧
      (stepDay thr m d s).sumUtil = s.sumUtil ∧
      (stepDay thr m d s).daysWithData = s.daysWithData ∧
      (stepDay thr m d s).totalUnder = s.totalUnder ∧
      (stepDay thr m d s).totalUnused = s.totalUnused ∧
      (stepDay thr m d s).maxUnder = s.maxUnder ∧
      (stepDay thr m d s).maxUnused = s.maxUnused ∧
      (stepDay thr m d s).payload = s.payload := by
  intro thr m d s h
  simp [stepDay, h]

/-- C2 witness: a concrete absent day resets the counters and keeps the rest. -/
theorem C2_witness :
    (stepDay ⟨80, 1⟩ [] 7 midState).curUnder = 0 ∧
    (stepDay ⟨80, 1⟩ [] 7 midState).curUnused = 0 ∧
    (stepDay ⟨80, 1⟩ [] 7 midState).sumUtil = midState.sumUtil ∧
    (stepDay ⟨80, 1⟩ [] 7 midState).maxUnder = midState.maxUnder := by
  have h := C2_gap_resets_counters_only ⟨80, 1⟩ [] 7 midState (by decide)
  exact ⟨h.1, h.2.1, h.2.2.1, h.2.2.2.2.2.2.1⟩

theorem statusOf_mem_five (m t : Nat) (c : Bool) (o thr : Frac) :
    statusOf m t c o thr = "No Data" ∨ statusOf m t c o thr = "Partial Data" ∨
    statusOf m t c o thr = "unused" ∨ statusOf m t c o thr = "underutilized" ∨
    statusOf m t c o thr = "healthy" := by
  unfold statusOf
  split_ifs <;> simp

theorem analyzeRI_status (cfg : Config) (sRD eRD : Int) (key : String × String)
    (m : List (Int × DayRec)) :
    (analyzeRI cfg sRD eRD key m).status =
      statusOf (missingDaysCount m sRD (eRD - sRD + 1).toNat) (eRD - sRD + 1).toNat
        (isContinuousFromStart m (runWalk cfg m sRD (eRD - sRD + 1).toNat).daysWithData)
        (overallUtil (runWalk cfg m sRD (eRD - sRD + 1).toNat).sumUtil
          (runWalk cfg m sRD (eRD - sRD + 1).toNat).daysWithData)
        (Frac.mul cfg.minUtilThreshold (Frac.ofInt 100)) := rfl

/-- C3: the status is chosen by the first matching rule of the fixed
precedence — `"No Data"` iff all window days are missing; else
`"Partial Data"` iff some day is missing and the data is not continuous;
else `"unused"` iff the overall utilization is 0; else `"underutilized"`
iff it is below the threshold; else `"healthy"` — and every produced
result's status is exactly one of these five strings. -/
theorem C3_status_precedence :
    (∀ (m t : Nat) (c : Bool) (o thr : Frac),
      (statusOf m t c o thr = "No Data" ↔ m = t) ∧
      (statusOf m t c o thr = "Partial Data" ↔ m ≠ t ∧ 0 < m ∧ c = false) ∧
      (statusOf m t c o thr = "unused" ↔
        m ≠ t ∧ ¬(0 < m ∧ c = false) ∧ Frac.eqv o (Frac.ofInt 0) = true) ∧
      (statusOf m t c o thr = "underutilized" ↔
        m ≠ t ∧ ¬(0 < m ∧ c = false) ∧ Frac.eqv o (Frac.ofInt 0) = false ∧
          Frac.ltb o thr = true) ∧
      (statusOf m t c o thr = "healthy" ↔
        m ≠ t ∧ ¬(0 < m ∧ c = false) ∧ Frac.eqv o (Frac.ofInt 0) = false ∧
          Frac.ltb o thr = false)) ∧
    (∀ (cfg : Config) (sD eD : Date) (rows : List RawRecord) (res : List RIResult),
      analyze_ri_utilization_for_period cfg sD eD rows = .ok res →
      ∀ r ∈ res,
        r.status = "No Data" ∨ r.status = "Partial Data" ∨ r.status = "unused" ∨
        r.status = "underutilized" ∨ r.status = "healthy") := by
  constructor
  · intro m t c o thr
    unfold statusOf
    split_ifs with h1 h2 h3 h4 <;>
      refine ⟨?_, ?_, ?_, ?_, ?_⟩ <;> simp_all
  · intro cfg sD eD rows res hok r hr
    obtain ⟨g, _, hres⟩ := (analyze_ok_iff cfg sD eD rows res).mp hok
    subst hres
    obtain ⟨x, _, hx⟩ := List.mem_map.mp hr
    subst hx
    rw [analyzeRI_status]
    exact statusOf_mem_five _ _ _ _ _

/-- C3 witness: the Scenario B run's record carries one of the five statuses. -/
theorem C3_witness :
    resultB.status = "No Data" ∨ resultB.status = "Partial Data" ∨
    resultB.status = "unused" ∨ resultB.status = "underutilized" ∨
    resultB.status = "healthy" :=
  C3_status_precedence.2 cfg0 ⟨2024, 6, 1⟩ ⟨2024, 6, 3⟩ rowsB scenarioBresults
    (by decide) resultB (by decide)

/-- C4: with at least one observed date, `isContinuousFromStart` holds
exactly when the number of days with data equals `lastSeen - firstSeen + 1`.
Consequently Scenario C (5-day window, records on days 1-2 only) has
`missingDays = 3`, a true continuity flag and a status that falls through
to the utilization rules instead of `"Partial Data"`, while Scenario D
(records on days 1, 3, 5) has `missingDays = 2`, a false flag and status
`"Partial Data"`. -/
theorem C4_continuity_flag :
    (∀ (m : List (Int × DayRec)) (n : Nat) (f l : Int),
      minKey m = some f → maxKey m = some l →
      (isContinuousFromStart m n = true ↔ (n : Int) = l - f + 1)) ∧
    ((analyze_ri_utilization_for_period cfg0 ⟨2024, 6, 1⟩ ⟨2024, 6, 5⟩ rowsC).map
      (fun rs => rs.map (fun r => (r.missingDays, r.status))) =
      .ok [(3, "healthy")]) ∧
    ((groupRows rowsC []).map (fun g => g.map (fun x => isContinuousFromStart x.2
        (runWalk cfg0 x.2 (toRD ⟨2024, 6, 1⟩) 5).daysWithData)) = .ok [true]) ∧
    ("healthy" ≠ "Partial Data") ∧
    ((analyze_ri_utilization_for_period cfg0 ⟨2024, 6, 1⟩ ⟨2024, 6, 5⟩ rowsD).map
      (fun rs => rs.map (fun r => (r.missingDays, r.status))) =
      .ok [(2, "Partial Data")]) ∧
    ((groupRows rowsD []).map (fun g => g.map (fun x => isContinuousFromStart x.2
        (runWalk cfg0 x.2 (toRD ⟨2024, 6, 1⟩) 5).daysWithData)) = .ok [false]) := by
  refine ⟨?_, by decide, by decide, by decide, by decide, by decide⟩
  intro m n f l hf hl
  unfold isContinuousFromStart
  rw [hf, hl]
  simp

/-- C4 witness: the continuity criterion applied to a one-day map. -/
theorem C4_witness :
    isContinuousFromStart [(5, dayRec30)] 1 = true ↔ ((1 : Nat) : Int) = 5 - 5 + 1 :=
  C4_continuity_flag.1 [(5, dayRec30)] 1 5 5 (by decide) (by decide)

/-- C5: for a valid purchase month, the computed expiry date is exactly
calendar-month addition — year advanced by `termMonths div 12`, month by
`termMonths mod 12` with a one-year carry past December, day clamped to the
last valid day of the resulting month.  In particular purchase `2024-01-31`
with a 1-month term and window end `2024-03-01` yields expiry `2024-02-29`,
`daysRemaining = -1` and `expiryStatus = "expired"`. -/
theorem C5_expiry_calendar_addition :
    (∀ (p : Date) (tm : Int), 1 ≤ p.month → p.month ≤ 12 →
      computeExpiry p tm = specExpiryDate p tm) ∧
    ((analyze_ri_utilization_for_period cfg0 ⟨2024, 3, 1⟩ ⟨2024, 3, 1⟩ [rowE]).map
      (fun rs => rs.map (fun r => (r.endDate, r.daysRemaining, r.expiryStatus))) =
      .ok [(some ⟨2024, 2, 29⟩, -1, "expired")]) := by
  refine ⟨?_, by decide⟩
  intro p tm h1 h2
  unfold computeExpiry specExpiryDate
  have hme : ∀ x : Int, x.emod 12 = x % 12 := fun _ => rfl
  have hfd : ∀ x : Int, x.fdiv 12 = x / 12 := fun x => Int.fdiv_eq_ediv x (by norm_num)
  simp only [hme, hfd, gt_iff_lt]
  by_cases h : 12 < p.month + tm % 12
  · have hd : (p.month + tm % 12 - 1) / 12 = 1 := by omega
    have hm : (p.month + tm % 12 - 1) % 12 + 1 = p.month + tm % 12 - 12 := by omega
    simp only [if_pos h, hd, hm]
    rw [min_def]
    split_ifs <;> rfl
  · simp only [if_neg h]
    rw [min_def]
    split_ifs <;> rfl

/-- C5 witness: month addition with clamping at the Scenario E purchase date. -/
theorem C5_witness :
    computeExpiry ⟨2024, 1, 31⟩ 1 = specExpiryDate ⟨2024, 1, 31⟩ 1 :=
  C5_expiry_calendar_addition.1 ⟨2024, 1, 31⟩ 1 (by decide) (by decide)

theorem expiryStatus_characterization (p : Date) (t endRD warn : Int) :
    expiryStatusOf (computeExpiryInfo (some p) (some t) endRD warn).1
        (computeExpiryInfo (some p) (some t) endRD warn).2.2 endRD =
      (if (computeExpiryInfo (some p) (some t) endRD warn).2.1 ≤ 0 then "expired"
       else if (computeExpiryInfo (some p) (some t) endRD warn).2.1 ≤ warn then
         "expiring_soon"
       else "active") := by
  simp only [computeExpiryInfo, expiryStatusOf]
  split_ifs <;> simp_all <;> omega

/-- C6: a missing purchase date or term yields `(null, -1, "active")`;
otherwise with `daysRemaining = expiryDate - windowEnd` the status is
`"expired"` when `daysRemaining <= 0`, `"expiring_soon"` when
`0 < daysRemaining <= expiryWarnDays`, else `"active"`; at the boundary
`daysRemaining = expiryWarnDays` (positive warn window) the status is
`"expiring_soon"` and at `expiryWarnDays + 1` it is `"active"`. -/
theorem C6_expiry_status_rules :
    (∀ (tm : Option Int) (endRD warn : Int),
      computeExpiryInfo none tm endRD warn = (none, -1, false) ∧
      expiryStatusOf none false endRD = "active") ∧
    (∀ (pd : Option Date) (endRD warn : Int),
      computeExpiryInfo pd none endRD warn = (none, -1, false)) ∧
    (∀ (p : Date) (t endRD warn : Int),
      expiryStatusOf (computeExpiryInfo (some p) (some t) endRD warn).1
          (computeExpiryInfo (some p) (some t) endRD warn).2.2 endRD =
        (if (computeExpiryInfo (some p) (some t) endRD warn).2.1 ≤ 0 then "expired"
         else if (computeExpiryInfo (some p) (some t) endRD warn).2.1 ≤ warn then
           "expiring_soon"
         else "active")) ∧
    (∀ (p : Date) (t endRD warn : Int), 0 < warn →
      (computeExpiryInfo (some p) (some t) endRD warn).2.1 = warn →
      expiryStatusOf (computeExpiryInfo (some p) (some t) endRD warn).1
        (computeExpiryInfo (some p) (some t) endRD warn).2.2 endRD = "expiring_soon") ∧
    (∀ (p : Date) (t endRD warn : Int), 0 ≤ warn →
      (computeExpiryInfo (some p) (some t) endRD warn).2.1 = warn + 1 →
      expiryStatusOf (computeExpiryInfo (some p) (some t) endRD warn).1
        (computeExpiryInfo (some p) (some t) endRD warn).2.2 endRD = "active") := by
  refine ⟨?_, ?_, ?_, ?_, ?_⟩
  · intro tm endRD warn
    cases tm <;> exact ⟨rfl, rfl⟩
  · intro pd endRD warn
    cases pd <;> rfl
  · intro p t endRD warn
    exact expiryStatus_characterization p t endRD warn
  · intro p t endRD warn hw hdr
    rw [expiryStatus_characterization, hdr, if_neg (by omega), if_pos (by omega)]
  · intro p t endRD warn hw hdr
    rw [expiryStatus_characterization, hdr, if_neg (by omega), if_neg (by omega)]

/-- C6 witness: an RI expiring exactly `expiryWarnDays` after the window end
is classified `"expiring_soon"`. -/
theorem C6_witness :
    expiryStatusOf
      (computeExpiryInfo (some ⟨2024, 1, 1⟩) (some 12) (toRD ⟨2025, 1, 1⟩ - 90) 90).1
      (computeExpiryInfo (some ⟨2024, 1, 1⟩) (some 12) (toRD ⟨2025, 1, 1⟩ - 90) 90).2.2
      (toRD ⟨2025, 1, 1⟩ - 90) = "expiring_soon" :=
  C6_expiry_status_rules.2.2.2.1 ⟨2024, 1, 1⟩ 12 (toRD ⟨2025, 1, 1⟩ - 90) 90
    (by decide) (by decide)

theorem expiringSoon_iff (pd : Option Date) (tm : Option Int) (endRD warn : Int) :
    (computeExpiryInfo pd tm endRD warn).2.2 = true ↔
      0 ≤ (computeExpiryInfo pd tm endRD warn).2.1 ∧
      (computeExpiryInfo pd tm endRD warn).2.1 ≤ warn := by
  cases pd <;> cases tm <;> simp [computeExpiryInfo]
  tauto

/-- C7 counterexample: for the RI of `rowX` the expiry date equals the
window end, so `daysRemaining = 0` and `expiryStatus = "expired"`, yet the
alert contains the expiring clause `"Expires in 0 day(s)"` — the claim
predicts an empty alert here, since neither consecutive-day clause fires
(both maxima are 0, below the configured minima 5 and 3) and
`expiryStatus` is not `"expiring_soon"`. -/
theorem C7_counterexample :
    (analyze_ri_utilization_for_period cfg0 ⟨2025, 1, 1⟩ ⟨2025, 1, 1⟩ [rowX]).map
      (fun rs => rs.map (fun r =>
        (r.expiryStatus, r.daysRemaining, r.alert,
         r.maxConsecutiveUnderutilizedDays, r.maxConsecutiveUnusedDays))) =
      .ok [("expired", 0, "Expires in 0 day(s)", 0, 0)] ∧
    ¬(cfg0.minUnusedDaysForAlert ≤ ((0 : Nat) : Int)) ∧
    ¬(cfg0.minUnderutilizedDaysForAlert ≤ ((0 : Nat) : Int)) ∧
    ("expired" ≠ "expiring_soon") ∧
    ("Expires in 0 day(s)" ≠ "") := by
  exact ⟨by decide, by decide, by decide, by decide, by decide⟩

/-- C7 amended: the alert is the semicolon-joined concatenation, in fixed
order, of the unused clause (iff `maxUnused >= minUnusedDaysForAlert`), the
underutilized clause (iff `maxUnderutilized >= minUnderutilizedDaysForAlert`)
and the expiring clause — which is present iff
`0 <= daysRemaining <= expiryWarnDays` (the `is_expiring_soon` flag), not
iff `expiryStatus == "expiring_soon"`: at `daysRemaining = 0` the clause
fires although the status is `"expired"`. -/
theorem C7_amended_alert_composition :
    ∀ (cfg : Config) (sRD eRD : Int) (key : String × String)
      (m : List (Int × DayRec)),
      (analyzeRI cfg sRD eRD key m).alert =
        specAlertAmended cfg (analyzeRI cfg sRD eRD key m) := by
  intro cfg sRD eRD key m
  simp only [analyzeRI, specAlertAmended, generate_alert]
  congr 1
  congr 1
  refine if_congr ?_ rfl rfl
  have h := expiringSoon_iff
    (runWalk cfg m sRD (eRD - sRD + 1).toNat).payload.purchaseDate
    (runWalk cfg m sRD (eRD - sRD + 1).toNat).payload.termMonths
    eRD cfg.expiryWarnDays
  constructor
  · rintro ⟨hs, _⟩
    exact h.mp hs
  · intro hs
    exact ⟨h.mpr hs, hs.1⟩

theorem groupRows_error_of_malformed :
    ∀ (rows : List RawRecord) (acc : Grouped),
      (∃ r ∈ rows, r.reportDate = none ∨ r.purchaseDate = none) →
      ∃ msg, groupRows rows acc = .error msg := by
  intro rows
  induction rows with
  | nil =>
      intro acc h
      obtain ⟨r, hr, _⟩ := h
      cases hr
  | cons r rest ih =>
      intro acc h
      cases hrd : r.reportDate with
      | none => exact ⟨"MalformedRecord", by simp [groupRows, hrd]⟩
      | some rd =>
          cases hpd : r.purchaseDate with
          | none => exact ⟨"MalformedRecord", by simp [groupRows, hrd, hpd]⟩
          | some pd =>
              obtain ⟨x, hx, hbad⟩ := h
              rcases List.mem_cons.mp hx with hxr | hxrest
              · subst hxr
                rcases hbad with hb | hb
                · rw [hrd] at hb; cases hb
                · rw [hpd] at hb; cases hb
              · obtain ⟨msg, hmsg⟩ := ih
                  (insertRow (r.subId, r.resId) (toRD rd)
                    { utilization := r.usage, emailRecipient := r.emailRecipient
                      skuName := r.skuName, region := r.region
                      termMonths := r.termMonths, purchaseDate := pd } acc)
                  ⟨x, hxrest, hbad⟩
                exact ⟨msg, by simp [groupRows, hrd, hpd, hmsg]⟩

/-- C8 counterexample: an input holding a well-formed record for RI
`(sub1, ri1)` and a record with an unparseable date for the distinct RI
`(sub2, ri2)` makes the whole run abort with an error — no result is
produced for the intact RI, contradicting the claim that the bad record is
dropped and every other RI still gets a result. -/
theorem C8_counterexample :
    analyze_ri_utilization_for_period cfg0 ⟨2024, 6, 1⟩ ⟨2024, 6, 3⟩
      [mkRow ⟨2024, 6, 1⟩ ⟨90, 1⟩, rowBad] = .error "MalformedRecord" ∧
    (mkRow ⟨2024, 6, 1⟩ ⟨90, 1⟩).resId ≠ rowBad.resId ∧
    rowBad.reportDate = none := by
  exact ⟨by decide, by decide, by decide⟩

/-- C8 amended: a record whose date field cannot be parsed makes the whole
aggregation run abort with an error (the single `try` handler logs and
re-raises); there is no per-record recovery in the analyzer, so no result
is returned for any RI. -/
theorem C8_amended_malformed_aborts_run :
    ∀ (cfg : Config) (sD eD : Date) (rows : List RawRecord),
      (∃ r ∈ rows, r.reportDate = none ∨ r.purchaseDate = none) →
      ∃ msg, analyze_ri_utilization_for_period cfg sD eD rows = .error msg := by
  intro cfg sD eD rows h
  obtain ⟨msg, hmsg⟩ := groupRows_error_of_malformed rows [] h
  refine ⟨msg, ?_⟩
  unfold analyze_ri_utilization_for_period
  simp [hmsg, bind, Except.bind]

/-- C8 witness: the amended abort behavior at the concrete two-record input. -/
theorem C8_witness :
    ∃ msg, analyze_ri_utilization_for_period cfg0 ⟨2024, 6, 1⟩ ⟨2024, 6, 3⟩
      [mkRow ⟨2024, 6, 1⟩ ⟨90, 1⟩, rowBad] = .error msg :=
  C8_amended_malformed_aborts_run cfg0 ⟨2024, 6, 1⟩ ⟨2024, 6, 3⟩
    [mkRow ⟨2024, 6, 1⟩ ⟨90, 1⟩, rowBad]
    ⟨rowBad, by decide, Or.inl (by decide)⟩

theorem stepDay_preserves_streakInv (thr : Frac) (m : List (Int × DayRec))
    (d : Int) (s : WalkState)
    (h : s.curUnused ≤ s.curUnder ∧ s.maxUnused ≤ s.maxUnder ∧
      s.totalUnused ≤ s.totalUnder) :
    (stepDay thr m d s).curUnused ≤ (stepDay thr m d s).curUnder ∧
    (stepDay thr m d s).maxUnused ≤ (stepDay thr m d s).maxUnder ∧
    (stepDay thr m d s).totalUnused ≤ (stepDay thr m d s).totalUnder := by
  obtain ⟨h1, h2, h3⟩ := h
  cases hl : lookupA d m with
  | none =>
      simp [stepDay, hl]
      omega
  | some rec =>
      cases hltb : Frac.ltb rec.utilization thr with
      | false =>
          simp [stepDay, hl, hltb]
          omega
      | true =>
          cases heqv : Frac.eqv rec.utilization (Frac.ofInt 0) with
          | true =>
              simp [stepDay, hl, hltb, heqv]
              omega
          | false =>
              simp [stepDay, hl, hltb, heqv]
              omega

theorem runWalk_streakInv (cfg : Config) (m : List (Int × DayRec))
    (sRD : Int) (n : Nat) :
    (runWalk cfg m sRD n).curUnused ≤ (runWalk cfg m sRD n).curUnder ∧
    (runWalk cfg m sRD n).maxUnused ≤ (runWalk cfg m sRD n).maxUnder ∧
    (runWalk cfg m sRD n).totalUnused ≤ (runWalk cfg m sRD n).totalUnder := by
  unfold runWalk
  refine foldl_preserves
    (fun s => s.curUnused ≤ s.curUnder ∧ s.maxUnused ≤ s.maxUnder ∧
      s.totalUnused ≤ s.totalUnder)
    (fun s d => stepDay (Frac.mul cfg.minUtilThreshold (Frac.ofInt 100)) m d s)
    (fun s d hs => stepDay_preserves_streakInv _ m d s hs)
    (windowDates sRD n) (initState cfg) ?_
  exact ⟨Nat.le_refl 0, Nat.le_refl 0, Nat.le_refl 0⟩

/-- C9: every output record satisfies
`maxConsecutiveUnusedDays <= maxConsecutiveUnderutilizedDays` and
`totalUnusedDays <= totalUnderutilizedDays`, since the unused counters are
only ever advanced inside the underutilized branch. -/
theorem C9_unused_le_underutilized :
    ∀ (cfg : Config) (sD eD : Date) (rows : List RawRecord) (res : List RIResult),
      analyze_ri_utilization_for_period cfg sD eD rows = .ok res →
      ∀ r ∈ res,
        r.maxConsecutiveUnusedDays ≤ r.maxConsecutiveUnderutilizedDays ∧
        r.totalUnusedDays ≤ r.totalUnderutilizedDays := by
  intro cfg sD eD rows res hok r hr
  obtain ⟨g, _, hres⟩ := (analyze_ok_iff cfg sD eD rows res).mp hok
  subst hres
  obtain ⟨x, _, hx⟩ := List.mem_map.mp hr
  subst hx
  have h := runWalk_streakInv cfg x.2 (toRD sD) ((toRD eD) - (toRD sD) + 1).toNat
  exact ⟨h.2.1, h.2.2⟩

/-- C9 witness: the invariant holds on the Scenario B output record. -/
theorem C9_witness :
    resultB.maxConsecutiveUnusedDays ≤ resultB.maxConsecutiveUnderutilizedDays ∧
    resultB.totalUnusedDays ≤ resultB.totalUnderutilizedDays :=
  C9_unused_le_underutilized cfg0 ⟨2024, 6, 1⟩ ⟨2024, 6, 3⟩ rowsB scenarioBresults
    (by decide) resultB (by decide)

theorem lookupA_eq_none_iff (m : List (Int × DayRec)) (k : Int) :
    lookupA k m = none ↔ k ∉ m.map Prod.fst := by
  induction m with
  | nil => simp [lookupA]
  | cons p rest ih =>
      obtain ⟨k', v'⟩ := p
      by_cases hk : k' = k
      · subst hk
        simp [lookupA]
      · simp [lookupA, hk, ih, Ne.symm hk]

theorem mem_setA_key (m : List (Int × DayRec)) (k : Int) (v : DayRec) :
    ∀ q ∈ setA k v m, q.1 = k ∨ q.1 ∈ m.map Prod.fst := by
  induction m with
  | nil => simp [setA]
  | cons p rest ih =>
      obtain ⟨k', v'⟩ := p
      intro q hq
      simp only [List.map_cons, List.mem_cons]
      by_cases hk : k' = k
      · simp only [setA, if_pos hk] at hq
        rcases List.mem_cons.mp hq with h | h
        · subst h; exact Or.inl rfl
        · exact Or.inr (Or.inr (List.mem_map_of_mem Prod.fst h))
      · simp only [setA, if_neg hk] at hq
        rcases List.mem_cons.mp hq with h | h
        · subst h; exact Or.inr (Or.inl rfl)
        · rcases ih q h with h' | h'
          · exact Or.inl h'
          · exact Or.inr (Or.inr h')

theorem setA_ne_nil (m : List (Int × DayRec)) (k : Int) (v : DayRec) :
    setA k v m ≠ [] := by
  cases m with
  | nil => simp [setA]
  | cons p rest =>
      obtain ⟨k', v'⟩ := p
      by_cases hk : k' = k <;> simp [setA, hk]

theorem insertRow_bounded (lo hi : Int) (key : String × String) (rd : Int)
    (rec : DayRec) (g : Grouped) (hlo : lo ≤ rd) (hhi : rd ≤ hi)
    (hg : groupBounded lo hi g) :
    groupBounded lo hi (insertRow key rd rec g) := by
  induction g with
  | nil =>
      intro e he
      simp only [insertRow, List.mem_singleton] at he
      subst he
      refine ⟨by simp, ?_⟩
      intro q hq
      simp only [List.mem_singleton] at hq
      subst hq
      exact ⟨hlo, hhi⟩
  | cons p rest ih =>
      obtain ⟨k, m⟩ := p
      have hhead := hg (k, m) (List.mem_cons_self _ _)
      have hrest : groupBounded lo hi rest := fun e he => hg e (List.mem_cons_of_mem _ he)
      by_cases hk : k = key
      · intro e he
        simp only [insertRow, if_pos hk] at he
        rcases List.mem_cons.mp he with h | h
        · subst h
          refine ⟨setA_ne_nil m rd rec, ?_⟩
          intro q hq
          rcases mem_setA_key m rd rec q hq with h' | h'
          · rw [h']; exact ⟨hlo, hhi⟩
          · obtain ⟨a, ha, hq1⟩ := List.mem_map.mp h'
            have := hhead.2 a ha
            rw [← hq1]; exact this
        · exact hrest e h
      · intro e he
        simp only [insertRow, if_neg hk] at he
        rcases List.mem_cons.mp he with h | h
        · subst h; exact hhead
        · exact ih hrest e h

theorem groupRows_ok_bounded (lo hi : Int) :
    ∀ (rows : List RawRecord) (acc : Grouped),
      (∀ r ∈ rows, ∀ d, r.reportDate = some d → lo ≤ toRD d ∧ toRD d ≤ hi) →
      groupBounded lo hi acc →
      ∀ g, groupRows rows acc = .ok g → groupBounded lo hi g := by
  intro rows
  induction rows with
  | nil =>
      intro acc _ hacc g hok
      simp only [groupRows, Except.ok.injEq] at hok
      subst hok
      exact hacc
  | cons r rest ih =>
      intro acc hin hacc g hok
      cases hrd : r.reportDate with
      | none => simp [groupRows, hrd] at hok
      | some rd =>
          cases hpd : r.purchaseDate with
          | none => simp [groupRows, hrd, hpd] at hok
          | some pd =>
              simp only [groupRows, hrd, hpd] at hok
              have hbnd := hin r (List.mem_cons_self _ _) rd hrd
              exact ih _
                (fun r' hr' d hd => hin r' (List.mem_cons_of_mem _ hr') d hd)
                (insertRow_bounded lo hi (r.subId, r.resId) (toRD rd) _ acc
                  hbnd.1 hbnd.2 hacc)
                g hok

theorem mem_windowDates (sRD : Int) (n : Nat) (k : Int)
    (h1 : sRD ≤ k) (h2 : k < sRD + n) : k ∈ windowDates sRD n := by
  unfold windowDates
  refine List.mem_map.mpr ⟨(k - sRD).toNat, ?_, ?_⟩
  · exact List.mem_range.mpr (by omega)
  · omega

theorem windowDates_length (sRD : Int) (n : Nat) :
    (windowDates sRD n).length = n := by
  unfold windowDates
  rw [List.length_map, List.length_range]

theorem filter_length_lt {α : Type} (p : α → Bool) :
    ∀ (l : List α) (a : α), a ∈ l → p a = false →
      (l.filter p).length < l.length := by
  intro l
  induction l with
  | nil => intro a ha; cases ha
  | cons b rest ih =>
      intro a ha hpa
      rcases List.mem_cons.mp ha with h | h
      · subst h
        simp only [List.filter, hpa, List.length_cons]
        have := List.length_filter_le p rest
        omega
      · cases hpb : p b with
        | true =>
            simp only [List.filter, hpb, List.length_cons]
            have := ih a h hpa
            omega
        | false =>
            simp only [List.filter, hpb, List.length_cons]
            have := ih a h hpa
            omega

theorem statusOf_ne_noData (m t : Nat) (c : Bool) (o thr : Frac)
    (h : m ≠ t) : statusOf m t c o thr ≠ "No Data" := by
  unfold statusOf
  split_ifs <;> simp_all

theorem analyzeRI_missingDays (cfg : Config) (sRD eRD : Int)
    (key : String × String) (m : List (Int × DayRec)) :
    (analyzeRI cfg sRD eRD key m).missingDays =
      missingDaysCount m sRD (eRD - sRD + 1).toNat := rfl

/-- C10: when every record's date lies inside the analysis window, every
RI identity present in the output has at least one day with data, so
`missingDays < totalWindowDays` and the `"No Data"` status is unreachable. -/
theorem C10_no_data_unreachable :
    ∀ (cfg : Config) (sD eD : Date) (rows : List RawRecord) (res : List RIResult),
      analyze_ri_utilization_for_period cfg sD eD rows = .ok res →
      (∀ r ∈ rows, ∀ d, r.reportDate = some d →
        toRD sD ≤ toRD d ∧ toRD d ≤ toRD eD) →
      ∀ r ∈ res,
        r.missingDays < (toRD eD - toRD sD + 1).toNat ∧ r.status ≠ "No Data" := by
  intro cfg sD eD rows res hok hin r hr
  obtain ⟨g, hg, hres⟩ := (analyze_ok_iff cfg sD eD rows res).mp hok
  subst hres
  obtain ⟨x, hxg, hx⟩ := List.mem_map.mp hr
  subst hx
  have hbound := groupRows_ok_bounded (toRD sD) (toRD eD) rows [] hin
    (fun e he => absurd he (List.not_mem_nil e)) g hg
  obtain ⟨hne, hq⟩ := hbound x hxg
  obtain ⟨q, hqmem⟩ : ∃ q, q ∈ x.2 := by
    cases hx2 : x.2 with
    | nil => exact absurd hx2 hne
    | cons a rest => exact ⟨a, List.mem_cons_self a rest⟩
  have hqb := hq q hqmem
  have hmem : q.1 ∈ windowDates (toRD sD) (toRD eD - toRD sD + 1).toNat :=
    mem_windowDates _ _ _ hqb.1 (by omega)
  have hlk : ((fun d => (lookupA d x.2).isNone) q.1) = false := by
    cases hl : lookupA q.1 x.2 with
    | some v => simp [hl]
    | none =>
        exact absurd (List.mem_map_of_mem Prod.fst hqmem)
          ((lookupA_eq_none_iff x.2 q.1).mp hl)
  have hmiss : missingDaysCount x.2 (toRD sD) (toRD eD - toRD sD + 1).toNat <
      (toRD eD - toRD sD + 1).toNat := by
    have hlt := filter_length_lt (fun d => (lookupA d x.2).isNone)
      (windowDates (toRD sD) (toRD eD - toRD sD + 1).toNat) q.1 hmem hlk
    rw [windowDates_length] at hlt
    exact hlt
  refine ⟨hmiss, ?_⟩
  rw [analyzeRI_status]
  exact statusOf_ne_noData _ _ _ _ _ (by omega)

/-- C10 witness: the Scenario B run (all records dated in the window) never
reports `"No Data"`. -/
theorem C10_witness :
    resultB.missingDays <
      (toRD ⟨2024, 6, 3⟩ - toRD ⟨2024, 6, 1⟩ + 1).toNat ∧
    resultB.status ≠ "No Data" :=
  C10_no_data_unreachable cfg0 ⟨2024, 6, 1⟩ ⟨2024, 6, 3⟩ rowsB scenarioBresults
    (by decide) (by decide) resultB (by decide)

end FinOpsRI
